import Mathlib

/-!
Shallow embedding of the office-time-manager Time Accounting and Punch
Integrity Engine (backend services: TimeEngine, PunchValidator,
PunchService, PunchCleanupService), together with theorems settling the
frozen claims about the specification.

Modelling conventions:
* `punchTime` instants are rationals measured in seconds (UTC epoch
  seconds); moment durations in minutes are `(t2 - t1) / 60`, in hours
  `(t2 - t1) / 3600`.
* `moment#diff` without the float flag truncates toward zero (`jsTrunc`);
  with the float flag it is the exact rational difference.
* The per-user punch log is a list ordered ascending by `punchTime`
  (every repository query sorts by `punchTime`); the Mongo query
  `sort punchTime desc, limit 1` is `List.getLast?`.
* JavaScript `Math.round` is `fun q => Int.floor (q + 1/2)`; division by
  zero follows IEEE/JS semantics through the small `JSNum` type
  (`0/0 = NaN`, `Math.min 100 NaN = NaN`).
* Database reads are passed in as explicit list arguments; thrown JS
  exceptions are `Except` errors.
-/

namespace OTM

/-- Punch type enum of the PunchLog schema. -/
inductive PunchType where
  | IN
  | OUT
deriving DecidableEq, Repr

/-- The string the code prints for a punch type. -/
def punchTypeName : PunchType → String
  | .IN => "IN"
  | .OUT => "OUT"

/-- A PunchLog document (the fields the engine reads or writes). -/
structure Punch where
  pid : Nat
  userId : Nat
  punchTime : ℚ
  punchType : PunchType
  source : String := "Manual"
  notes : Option String := none
  edited : Bool := false
  editedBy : Option Nat := none
  editedAt : Option ℚ := none
  editReason : Option String := none
  originalPunchTime : Option ℚ := none
  originalPunchType : Option PunchType := none
deriving DecidableEq, Repr

/-- Truncation toward zero, the semantics of moment diff without the
float flag (floor for nonnegative values, ceiling for negative ones). -/
def jsTrunc (q : ℚ) : ℤ :=
  if 0 ≤ q then q.floor else q.ceil

/-- JavaScript `Math.round` on a finite number: the floor of `q + 1/2`. -/
def jsRound (q : ℚ) : ℤ := (q + 1/2).floor

/-- The computable rational floor agrees with the order-theoretic one. -/
theorem ratFloor_eq_intFloor (q : ℚ) : q.floor = ⌊q⌋ :=
  (Rat.floor_def' q).trans Rat.floor_def.symm

/-- On nonnegative inputs the truncation is the floor. -/
theorem jsTrunc_of_nonneg {q : ℚ} (h : 0 ≤ q) : jsTrunc q = ⌊q⌋ := by
  rw [jsTrunc, if_pos h, ratFloor_eq_intFloor]

/-- `jsRound` as the order-theoretic floor. -/
theorem jsRound_eq_intFloor (q : ℚ) : jsRound q = ⌊q + 1/2⌋ := by
  rw [jsRound, ratFloor_eq_intFloor]

/-- `Math.round (x * 100) / 100`, the two-decimal rounding applied to
reported minute totals. -/
def round2 (q : ℚ) : ℚ := (jsRound (q * 100) : ℚ) / 100

/-- TimeEngine.calculateWorkedTime, the scanning loop: walks the punch
list carrying the running total and the pending unmatched IN punch. -/
def calcLoop : List Punch → ℚ → Option Punch → ℚ × Option Punch
  | [], total, lastIn => (total, lastIn)
  | p :: rest, total, lastIn =>
    match p.punchType with
    | .IN => calcLoop rest total (some p)
    | .OUT =>
      match lastIn with
      | some inP =>
        let duration := (p.punchTime - inP.punchTime) / 60
        if duration > 1440 then calcLoop rest total none
        else calcLoop rest (total + duration) none
      | none => calcLoop rest total none

/-- TimeEngine.calculateWorkedTime: total worked minutes of a punch
sequence, optionally counting the open session up to `now`. -/
def calculateWorkedTime (punches : List Punch) (includeOpenPunch : Bool)
    (now : ℚ) : ℚ :=
  let scanned := calcLoop punches 0 none
  let total :=
    match includeOpenPunch, scanned.2 with
    | true, some inP =>
      let duration := (now - inP.punchTime) / 60
      if duration ≤ 960 then scanned.1 + duration else scanned.1 + 480
    | _, _ => scanned.1
  max 0 total

/-- State of the section-4.3 reference scan: the pending unmatched IN
time and the accumulated minutes. -/
structure SpecScanState where
  pendingIn : Option ℚ
  total : ℚ

/-- One step of the section-4.3 reference algorithm, following the
wording of the specification: a later IN overwrites the pending marker,
an OUT with no pending IN contributes nothing, a matched pair longer
than 1440 minutes is discarded, any other pair is accumulated. -/
def specScanStep (st : SpecScanState) (p : Punch) : SpecScanState :=
  match p.punchType with
  | .IN => { st with pendingIn := some p.punchTime }
  | .OUT =>
    match st.pendingIn with
    | none => st
    | some tin =>
      let duration := (p.punchTime - tin) / 60
      if duration > 1440 then { pendingIn := none, total := st.total }
      else { pendingIn := none, total := st.total + duration }

/-- The section-4.3 reference algorithm written from the wording of the
specification, to be compared with `calculateWorkedTime`: scan left to
right, then if requested add the open session (true elapsed time when at
most 960 minutes, a fixed 480 otherwise), and floor the result at 0. -/
def calculateWorkedMinutesSpec (punches : List Punch)
    (includeOpenSession : Bool) (now : ℚ) : ℚ :=
  let st := punches.foldl specScanStep ⟨none, 0⟩
  let withOpen :=
    if includeOpenSession then
      match st.pendingIn with
      | some tin =>
        let elapsed := (now - tin) / 60
        if elapsed ≤ 960 then st.total + elapsed else st.total + 480
      | none => st.total
    else st.total
  max 0 withOpen

/-- The loop of `calculateWorkedTime` agrees with the reference scan:
the pending punch matters only through its time. -/
theorem calcLoop_eq_specScan (punches : List Punch) :
    ∀ (total : ℚ) (lastIn : Option Punch),
      (calcLoop punches total lastIn).1 =
        (punches.foldl specScanStep ⟨lastIn.map Punch.punchTime, total⟩).total ∧
      (calcLoop punches total lastIn).2.map Punch.punchTime =
        (punches.foldl specScanStep ⟨lastIn.map Punch.punchTime, total⟩).pendingIn := by
  induction punches with
  | nil => intro total lastIn; exact ⟨rfl, rfl⟩
  | cons p rest ih =>
    intro total lastIn
    cases hpt : p.punchType with
    | IN =>
      simpa [calcLoop, hpt, List.foldl_cons, specScanStep] using ih total (some p)
    | OUT =>
      cases lastIn with
      | none =>
        simpa [calcLoop, hpt, List.foldl_cons, specScanStep] using ih total none
      | some inP =>
        by_cases hd : (p.punchTime - inP.punchTime) / 60 > 1440
        · simpa [calcLoop, hpt, List.foldl_cons, specScanStep, hd] using ih total none
        · simpa [calcLoop, hpt, List.foldl_cons, specScanStep, hd] using
            ih (total + (p.punchTime - inP.punchTime) / 60) none

/-- The punch sequence of the concrete example of the specification:
IN 09:00, OUT 12:00, IN 13:00, OUT 17:00 (UTC, epoch seconds). -/
def c1ExamplePunches : List Punch :=
  [ { pid := 1, userId := 7, punchTime := 32400, punchType := .IN },
    { pid := 2, userId := 7, punchTime := 43200, punchType := .OUT },
    { pid := 3, userId := 7, punchTime := 46800, punchType := .IN },
    { pid := 4, userId := 7, punchTime := 61200, punchType := .OUT } ]

/-- Helper: the value of the worked-time calculator on the concrete
example punches. -/
theorem calcWorked_c1Example_eq :
    calculateWorkedTime c1ExamplePunches false 0 = 420 := by
  show max 0 (calcLoop c1ExamplePunches 0 none).1 = 420
  norm_num [c1ExamplePunches, calcLoop]

/-- C1 counterexample: on the punches IN 09:00, OUT 12:00, IN 13:00,
OUT 17:00 with the open session excluded, `calculateWorkedTime` returns
420 minutes (3h + 4h), not the 480 the claim states. -/
theorem c1_example_is_420_not_480 :
    calculateWorkedTime c1ExamplePunches false 0 = 420 ∧ (420 : ℚ) ≠ 480 := by
  exact ⟨calcWorked_c1Example_eq, by norm_num⟩

/-- C1 (amended): `calculateWorkedTime` computes exactly the
section-4.3 reference algorithm (left-to-right scan with pending-IN
overwrite, OUT without IN ignored, pairs over 1440 minutes discarded,
open session added as true elapsed time when at most 960 minutes and as
a fixed 480 otherwise, floored at 0), and on the concrete example
IN 09:00, OUT 12:00, IN 13:00, OUT 17:00 without the open session the
result is 420 minutes, not 480. -/
theorem c1_calculateWorkedTime_follows_reference_algorithm :
    (∀ (punches : List Punch) (includeOpen : Bool) (now : ℚ),
        calculateWorkedTime punches includeOpen now =
          calculateWorkedMinutesSpec punches includeOpen now) ∧
      calculateWorkedTime c1ExamplePunches false 0 = 420 := by
  refine ⟨fun punches includeOpen now => ?_, calcWorked_c1Example_eq⟩
  obtain ⟨h1, h2⟩ := calcLoop_eq_specScan punches 0 none
  simp only [Option.map_none'] at h1 h2
  unfold calculateWorkedTime calculateWorkedMinutesSpec
  cases includeOpen with
  | false => simp [h1]
  | true =>
    cases hc : (calcLoop punches 0 none).2 with
    | none =>
      have hp : (punches.foldl specScanStep ⟨none, 0⟩).pendingIn = none := by
        simpa [hc] using h2.symm
      simp [hc, hp, h1]
    | some inP =>
      have hp : (punches.foldl specScanStep ⟨none, 0⟩).pendingIn = some inP.punchTime := by
        simpa [hc] using h2.symm
      simp [hc, hp, h1]

/-- TimeEngine.getLastPunch: the Mongo query sorts by punchTime
descending with limit 1; on the ascending punch log that is the last
element. -/
def getLastPunch (db : List Punch) : Option Punch := db.getLast?

/-- The punches of the day query (punchTime between the day bounds,
inclusive on both ends), in ascending order. -/
def todayPunches (db : List Punch) (dayStart dayEnd : ℚ) : List Punch :=
  db.filter fun p => dayStart ≤ p.punchTime ∧ p.punchTime ≤ dayEnd

/-- The opposite punch type. -/
def oppositeType : PunchType → PunchType
  | .IN => .OUT
  | .OUT => .IN

/-- TimeEngine.getNextPunchType: IN when the user has no punch at all,
otherwise the toggle of the most recent punch of any day. -/
def getNextPunchType (db : List Punch) : PunchType :=
  match getLastPunch db with
  | none => .IN
  | some lastPunch => if lastPunch.punchType = .IN then .OUT else .IN

/-- A one-punch log whose only punch lies before the current day. -/
def c2ExampleDb : List Punch :=
  [ { pid := 1, userId := 7, punchTime := 0, punchType := .IN } ]

/-- C2 counterexample: a user whose only punch (an IN) happened before
today has no punches inside the day bounds 100..200, yet
`getNextPunchType` returns OUT, not the IN the claim requires when no
punches exist today. -/
theorem c2_yesterday_punch_gives_OUT :
    todayPunches c2ExampleDb 100 200 = [] ∧
      getNextPunchType c2ExampleDb = .OUT ∧ PunchType.OUT ≠ PunchType.IN := by
  refine ⟨?_, rfl, by decide⟩
  simp [todayPunches, c2ExampleDb]

/-- C2 (amended): `getNextPunchType` returns IN exactly when the user
has no punches at all (today-scoping plays no part: the query is over
the whole log); otherwise it returns the opposite of the type of the
most recent punch of any day. -/
theorem c2_getNextPunchType_toggles_last_punch (db : List Punch) :
    (db = [] → getNextPunchType db = .IN) ∧
      (∀ p, getLastPunch db = some p →
        getNextPunchType db = oppositeType p.punchType) := by
  constructor
  · intro h; subst h; rfl
  · intro p hp
    unfold getNextPunchType
    rw [hp]
    cases hpt : p.punchType <;> simp [oppositeType, hpt]

/-- C2 witness instance. -/
theorem c2_getNextPunchType_toggles_last_punch_witness :
    getNextPunchType c2ExampleDb =
      oppositeType PunchType.IN := by
  exact (c2_getNextPunchType_toggles_last_punch c2ExampleDb).2
    { pid := 1, userId := 7, punchTime := 0, punchType := .IN } rfl

/-- TimeEngine.isDoublePunch: true when the absolute truncated
second difference between the new punch time and the most recent punch
is under 60. -/
def isDoublePunch (db : List Punch) (newPunchTime : ℚ) : Bool :=
  match getLastPunch db with
  | none => false
  | some lastPunch =>
    (jsTrunc (newPunchTime - lastPunch.punchTime)).natAbs < 60

/-- Result of PunchValidator.validatePunchSequence. -/
structure SeqResult where
  valid : Bool
  error : Option String
deriving DecidableEq, Repr

/-- PunchValidator.validatePunchSequence over the punches of the day:
the first punch of the day must be IN, and the same type may not be
punched twice in a row. -/
def validatePunchSequence (todays : List Punch) (newType : PunchType) :
    SeqResult :=
  match todays.getLast? with
  | none =>
    if newType ≠ .IN then
      ⟨false, some "First punch of the day must be IN"⟩
    else ⟨true, none⟩
  | some lastPunch =>
    if lastPunch.punchType = newType then
      ⟨false, some ("Cannot punch " ++ punchTypeName newType ++
        " twice in a row")⟩
    else ⟨true, none⟩

/-- The rejection reasons of PunchService.createPunch (warnings never
reject; only the double-punch check and a sequence error do). -/
inductive CreateError where
  | doublePunch
  | validationError (msg : String)
deriving DecidableEq, Repr

/-- PunchService.createPunch for a non-NFC punch at the current instant
`now`: first the double-punch check, then the punch type is derived and
the comprehensive validation runs, whose only blocking part is the
sequence check; on success the punch is appended to the log. -/
def createPunch (db : List Punch) (dayStart dayEnd : ℚ) (now : ℚ)
    (newPid uid : Nat) : Except CreateError (Punch × List Punch) :=
  if isDoublePunch db now then .error .doublePunch
  else
    let ptype := getNextPunchType db
    let seq := validatePunchSequence (todayPunches db dayStart dayEnd) ptype
    if seq.valid = false then
      .error (.validationError (seq.error.getD ""))
    else
      let newPunch : Punch :=
        { pid := newPid, userId := uid, punchTime := now, punchType := ptype }
      .ok (newPunch, db ++ [newPunch])

/-- A log with a single IN punch at instant 0 of the current day. -/
def c3ExampleDb : List Punch :=
  [ { pid := 1, userId := 7, punchTime := 0, punchType := .IN } ]

/-- C3: whenever the new punch time is within 60 truncated seconds of
the most recent punch of any type, `createPunch` rejects with the
double-punch error — before the sequence check can run, whatever the
day bounds and the sequence situation; moreover on a log whose last
punch was 10 seconds ago the punch is rejected as a double punch, and
at 61 seconds it is accepted and appended. -/
theorem c3_double_punch_debounce :
    (∀ (db : List Punch) (dayStart dayEnd now : ℚ) (newPid uid : Nat)
        (lp : Punch), getLastPunch db = some lp →
        (jsTrunc (now - lp.punchTime)).natAbs < 60 →
        createPunch db dayStart dayEnd now newPid uid = .error .doublePunch) ∧
      createPunch c3ExampleDb 0 86399 10 2 7 = .error .doublePunch ∧
      (∃ r, createPunch c3ExampleDb 0 86399 61 2 7 = .ok r) := by
  refine ⟨?_, ?_, ?_⟩
  · intro db dayStart dayEnd now newPid uid lp hlp hdiff
    have hd : isDoublePunch db now = true := by
      unfold isDoublePunch
      rw [hlp]
      simpa using hdiff
    unfold createPunch
    rw [hd]
    rfl
  · have h : jsTrunc (10 : ℚ) = 10 := by
      rw [jsTrunc_of_nonneg (by norm_num)]; norm_num
    have hd : isDoublePunch c3ExampleDb 10 = true := by
      simp [isDoublePunch, getLastPunch, c3ExampleDb, h]
    unfold createPunch
    rw [hd]
    rfl
  · refine ⟨({ pid := 2, userId := 7, punchTime := 61, punchType := .OUT },
      c3ExampleDb ++
        [{ pid := 2, userId := 7, punchTime := 61, punchType := .OUT }]), ?_⟩
    have h : jsTrunc (61 : ℚ) = 61 := by
      rw [jsTrunc_of_nonneg (by norm_num)]; norm_num
    have hd : isDoublePunch c3ExampleDb 61 = false := by
      simp [isDoublePunch, getLastPunch, c3ExampleDb, h]
    unfold createPunch
    rw [hd]
    simp only [Bool.false_eq_true, if_false]
    rfl

/-- C3 witness instance: the universally quantified part applied to the
concrete 10-second scenario. -/
theorem c3_double_punch_debounce_witness :
    createPunch c3ExampleDb 0 86399 10 2 7 = .error .doublePunch := by
  refine c3_double_punch_debounce.1 c3ExampleDb 0 86399 10 2 7
    { pid := 1, userId := 7, punchTime := 0, punchType := .IN } rfl ?_
  have h : jsTrunc (10 : ℚ) = 10 := by
    rw [jsTrunc_of_nonneg (by norm_num)]; norm_num
  simp [h]

/-- A configured business-hours window, the parsed form of the
start/end "HH:MM" strings. -/
structure BusinessHours where
  startHour : Nat
  startMin : Nat
  endHour : Nat
  endMin : Nat
deriving DecidableEq, Repr

/-- The fallback window of the code: start 06:00, end 23:59. -/
def defaultBusinessHours : BusinessHours := ⟨6, 0, 23, 59⟩

/-- Result of PunchValidator.validateBusinessHours (the warning object
carries requiresApproval). -/
structure BHResult where
  valid : Bool
  requiresApproval : Bool
deriving DecidableEq, Repr

/-- PunchValidator.validateBusinessHours on the local time-of-day of
the punch: warns when the punch minutes are below the start minutes or
above the end minutes. -/
def validateBusinessHours (punchHour punchMin : Nat)
    (businessHours : Option BusinessHours) : BHResult :=
  let bh := businessHours.getD defaultBusinessHours
  let punchMinutes := punchHour * 60 + punchMin
  let startMinutes := bh.startHour * 60 + bh.startMin
  let endMinutes := bh.endHour * 60 + bh.endMin
  if punchMinutes < startMinutes ∨ punchMinutes > endMinutes then
    { valid := false, requiresApproval := true }
  else { valid := true, requiresApproval := false }

/-- C7 counterexample: with the window 09:00 to 17:00, a punch at
exactly the end time 17:00 is accepted with no warning and no approval
flag, although the claim places the end outside its half-open window
and requires a warning. -/
theorem c7_punch_at_end_time_is_valid :
    validateBusinessHours 17 0 (some ⟨9, 0, 17, 0⟩) =
      { valid := true, requiresApproval := false } := by
  rfl

/-- C7 (amended): the business-hours check warns with requiresApproval
exactly when the local time-of-day lies outside the closed window from
start to end: strictly before the start or strictly after the end; a
punch at exactly the end time is inside the window and does not warn. -/
theorem c7_business_hours_window_is_closed
    (punchHour punchMin : Nat) (bh : BusinessHours) :
    ((validateBusinessHours punchHour punchMin (some bh)).valid = false ∧
        (validateBusinessHours punchHour punchMin (some bh)).requiresApproval
          = true) ↔
      (punchHour * 60 + punchMin < bh.startHour * 60 + bh.startMin ∨
        punchHour * 60 + punchMin > bh.endHour * 60 + bh.endMin) := by
  unfold validateBusinessHours
  by_cases h : punchHour * 60 + punchMin < bh.startHour * 60 + bh.startMin ∨
      punchHour * 60 + punchMin > bh.endHour * 60 + bh.endMin
  · simp [h]
  · simp [h]

/-- The anomaly types of PunchValidator.detectPunchIssues. -/
inductive IssueType where
  | ODD_PUNCH_COUNT
  | LONG_OPEN_PUNCH
  | SHORT_SESSION
  | MULTIPLE_SESSIONS
deriving DecidableEq, Repr

/-- An anomaly record: type, severity, and for short sessions the two
punch times of the session named in the description. -/
structure Issue where
  itype : IssueType
  severity : String
  sessionStart : Option ℚ := none
  sessionEnd : Option ℚ := none
deriving DecidableEq, Repr

/-- Body of the short-session loop at index `i`: when both punches
exist, the pair is IN then OUT and the truncated minute difference is
under 30, return the two punch times. -/
def shortPairTimes (punches : List Punch) (i : Nat) : Option (ℚ × ℚ) :=
  match punches[i]?, punches[i+1]? with
  | some a, some b =>
    if a.punchType = .IN ∧ b.punchType = .OUT then
      if jsTrunc ((b.punchTime - a.punchTime) / 60) < 30 then
        some (a.punchTime, b.punchTime)
      else none
    else none
  | _, _ => none

/-- The SHORT_SESSION issue built from a detected pair. -/
def shortIssue (se : ℚ × ℚ) : Issue :=
  { itype := .SHORT_SESSION, severity := "info",
    sessionStart := some se.1, sessionEnd := some se.2 }

/-- The short-session loop of detectPunchIssues: indices 0, 2, 4, …
strictly below length − 1 (the stride-2 for loop), each index checked
with `shortPairTimes`. -/
def shortSessionIssues (punches : List Punch) : List Issue :=
  ((List.range punches.length).filter fun i =>
      i % 2 = 0 ∧ i + 1 < punches.length).filterMap
    fun i => (shortPairTimes punches i).map shortIssue

/-- The odd-punch-count check of detectPunchIssues. -/
def oddCountIssues (punches : List Punch) : List Issue :=
  if punches.length > 0 ∧ punches.length % 2 ≠ 0 then
    [{ itype := .ODD_PUNCH_COUNT, severity := "warning" }]
  else []

/-- The long-open-punch check of detectPunchIssues: last punch IN and
more than 12 elapsed hours. -/
def openPunchIssues (punches : List Punch) (now : ℚ) : List Issue :=
  match punches.getLast? with
  | some lastPunch =>
    if lastPunch.punchType = .IN ∧ (now - lastPunch.punchTime) / 3600 > 12
    then
      [{ itype := .LONG_OPEN_PUNCH, severity := "error",
         sessionStart := some lastPunch.punchTime }]
    else []
  | none => []

/-- The multiple-sessions check of detectPunchIssues. -/
def multiSessionIssues (punches : List Punch) : List Issue :=
  if punches.length / 2 > 3 then
    [{ itype := .MULTIPLE_SESSIONS, severity := "info" }]
  else []

/-- PunchValidator.detectPunchIssues over the punches of the day, in
the order of the code: odd punch count, long open punch, short
sessions, multiple sessions. -/
def detectPunchIssues (punches : List Punch) (now : ℚ) : List Issue :=
  oddCountIssues punches ++ openPunchIssues punches now ++
    shortSessionIssues punches ++ multiSessionIssues punches

/-- Every issue produced by the short-session loop is a SHORT_SESSION. -/
theorem shortSessionIssues_itype {punches : List Punch} {iss : Issue}
    (h : iss ∈ shortSessionIssues punches) : iss.itype = .SHORT_SESSION := by
  obtain ⟨i, _, hmap⟩ := List.mem_filterMap.mp h
  obtain ⟨se, _, hiss⟩ := Option.map_eq_some'.mp hmap
  rw [← hiss]
  rfl

/-- Today punches OUT 00:00, IN 00:10, OUT 00:20: the adjacent
IN-then-OUT pair sits at the odd index 1. -/
def c8ExamplePunches : List Punch :=
  [ { pid := 1, userId := 7, punchTime := 0, punchType := .OUT },
    { pid := 2, userId := 7, punchTime := 600, punchType := .IN },
    { pid := 3, userId := 7, punchTime := 1200, punchType := .OUT } ]

/-- C8 counterexample: in the punches OUT, IN, OUT the adjacent IN-OUT
pair at index 1 lasts 10 minutes and passes the short-session body
check, yet detectPunchIssues emits no SHORT_SESSION issue, because the
stride-2 loop only looks at even indices. -/
theorem c8_odd_index_short_pair_missed :
    shortPairTimes c8ExamplePunches 1 = some (600, 1200) ∧
      (detectPunchIssues c8ExamplePunches 1200).filter
        (fun iss => iss.itype = .SHORT_SESSION) = [] := by
  have harg : ((1200 : ℚ) - 600) / 60 = 10 := by norm_num
  have h10 : jsTrunc (10 : ℚ) = 10 := by
    rw [jsTrunc_of_nonneg (by norm_num)]; norm_num
  constructor
  · simp [shortPairTimes, c8ExamplePunches, harg, h10]
  · rfl

/-- C8 (amended): the SHORT_SESSION issues of detectPunchIssues are
exactly those of the stride-2 loop, which only examines the adjacent
pairs starting at even indices; every even-indexed adjacent IN-then-OUT
pair whose truncated minute difference is under 30 yields an issue
(pairs at odd indices are never examined). -/
theorem c8_short_session_even_pairs (punches : List Punch) (now : ℚ) :
    (detectPunchIssues punches now).filter
        (fun iss => iss.itype = .SHORT_SESSION) =
      shortSessionIssues punches ∧
    (∀ (i : Nat) (a b : Punch), i % 2 = 0 →
      punches[i]? = some a → punches[i+1]? = some b →
      a.punchType = .IN → b.punchType = .OUT →
      jsTrunc ((b.punchTime - a.punchTime) / 60) < 30 →
      shortIssue (a.punchTime, b.punchTime) ∈ detectPunchIssues punches now) := by
  constructor
  · unfold detectPunchIssues
    simp only [List.filter_append]
    have hshort : (shortSessionIssues punches).filter
        (fun iss => iss.itype = .SHORT_SESSION) = shortSessionIssues punches := by
      apply List.filter_eq_self.mpr
      intro iss hmem
      simpa using shortSessionIssues_itype hmem
    rw [hshort]
    have hodd : (oddCountIssues punches).filter
        (fun iss => iss.itype = .SHORT_SESSION) = [] := by
      unfold oddCountIssues; split <;> simp
    have hopen : (openPunchIssues punches now).filter
        (fun iss => iss.itype = .SHORT_SESSION) = [] := by
      rcases hgl : punches.getLast? with _ | lastPunch
      · simp [openPunchIssues, hgl]
      · simp only [openPunchIssues, hgl]
        split <;> simp
    have hmulti : (multiSessionIssues punches).filter
        (fun iss => iss.itype = .SHORT_SESSION) = [] := by
      unfold multiSessionIssues; split <;> simp
    rw [hodd, hopen, hmulti]
    simp
  · intro i a b hmod ha hb hain hbout hdur
    have hlen : i + 1 < punches.length := by
      have := List.getElem?_eq_some.mp hb
      exact this.1
    have hpair : shortPairTimes punches i = some (a.punchTime, b.punchTime) := by
      unfold shortPairTimes
      rw [ha, hb]
      simp [hain, hbout, hdur]
    have hmem : shortIssue (a.punchTime, b.punchTime) ∈ shortSessionIssues punches := by
      apply List.mem_filterMap.mpr
      refine ⟨i, ?_, ?_⟩
      · apply List.mem_filter.mpr
        refine ⟨List.mem_range.mpr (Nat.lt_of_succ_lt hlen), ?_⟩
        simp [hmod, hlen]
      · rw [hpair]; rfl
    unfold detectPunchIssues
    simp only [List.mem_append]
    exact Or.inl (Or.inr hmem)

/-- The two punches of the C8 witness: IN 00:00, OUT 00:10. -/
def c8WitnessPunches : List Punch :=
  [ { pid := 1, userId := 7, punchTime := 0, punchType := .IN },
    { pid := 2, userId := 7, punchTime := 600, punchType := .OUT } ]

/-- C8 witness instance: the even-index pair IN 00:00, OUT 00:10
produces its SHORT_SESSION issue. -/
theorem c8_short_session_even_pairs_witness :
    shortIssue (0, 600) ∈ detectPunchIssues c8WitnessPunches 600 := by
  have h10 : jsTrunc (10 : ℚ) = 10 := by
    rw [jsTrunc_of_nonneg (by norm_num)]; norm_num
  have harg : ((600 : ℚ) - 0) / 60 = 10 := by norm_num
  have hdur : jsTrunc (((600 : ℚ) - 0) / 60) < 30 := by
    rw [harg, h10]; norm_num
  exact (c8_short_session_even_pairs c8WitnessPunches 600).2 0
    { pid := 1, userId := 7, punchTime := 0, punchType := .IN }
    { pid := 2, userId := 7, punchTime := 600, punchType := .OUT }
    rfl rfl rfl rfl rfl hdur

/-- The actor performing an edit (user id and role). -/
structure Actor where
  aid : Nat
  role : String
deriving DecidableEq, Repr

/-- The editData argument of PunchService.editPunch; absent fields are
`none` (a provided Date or punch-type string is always truthy). -/
structure EditData where
  punchTime : Option ℚ := none
  punchType : Option PunchType := none
  editReason : Option String := none
deriving DecidableEq, Repr

/-- PunchService.editPunch on the punch found by id (`none` models a
missing document): permission check, first-write capture of the
original fields through the JS or-assignment, conditional updates of
time and type, then the edit metadata. -/
def editPunch (punch? : Option Punch) (ed : EditData) (performedBy : Actor)
    (now : ℚ) : Except String Punch :=
  match punch? with
  | none => .error "Punch not found."
  | some punch =>
    if performedBy.role ≠ "Admin" ∧ punch.userId ≠ performedBy.aid then
      .error "Not authorized to edit this punch."
    else
      let p1 := { punch with
        originalPunchTime :=
          match punch.originalPunchTime with
          | some t => some t
          | none => some punch.punchTime,
        originalPunchType :=
          match punch.originalPunchType with
          | some t => some t
          | none => some punch.punchType }
      let p2 :=
        match ed.punchTime with
        | some t => { p1 with punchTime := t }
        | none => p1
      let p3 :=
        match ed.punchType with
        | some t => { p2 with punchType := t }
        | none => p2
      .ok { p3 with
        edited := true, editedBy := some performedBy.aid,
        editedAt := some now, editReason := ed.editReason }

/-- A sequence of successive edits, each applied to the result of the
previous one (as successive editPunch calls on the stored document). -/
def applyEdits : Punch → List (EditData × Actor × ℚ) → Except String Punch
  | p, [] => .ok p
  | p, (ed, actor, t) :: rest =>
    match editPunch (some p) ed actor t with
    | .error e => .error e
    | .ok q => applyEdits q rest

/-- A successful edit leaves already-set original fields unchanged. -/
theorem editPunch_preserves_originals {p q : Punch} {ed : EditData}
    {actor : Actor} {t : ℚ} {x : ℚ} {y : PunchType}
    (hx : p.originalPunchTime = some x) (hy : p.originalPunchType = some y)
    (h : editPunch (some p) ed actor t = .ok q) :
    q.originalPunchTime = some x ∧ q.originalPunchType = some y := by
  unfold editPunch at h
  split at h
  · exact absurd h (by simp)
  · rename_i lastPunch heq
    injection heq with heq
    subst heq
    split at h
    · exact absurd h (by simp)
    · rw [hx, hy] at h
      cases h
      cases ed.punchTime <;> cases ed.punchType <;> exact ⟨rfl, rfl⟩

/-- A successful first edit captures the pre-edit time and type. -/
theorem editPunch_first_capture {p q : Punch} {ed : EditData}
    {actor : Actor} {t : ℚ}
    (hx : p.originalPunchTime = none) (hy : p.originalPunchType = none)
    (h : editPunch (some p) ed actor t = .ok q) :
    q.originalPunchTime = some p.punchTime ∧
      q.originalPunchType = some p.punchType := by
  unfold editPunch at h
  split at h
  · exact absurd h (by simp)
  · rename_i lastPunch heq
    injection heq with heq
    subst heq
    split at h
    · exact absurd h (by simp)
    · rw [hx, hy] at h
      cases h
      cases ed.punchTime <;> cases ed.punchType <;> exact ⟨rfl, rfl⟩

/-- Already-set original fields survive any sequence of successful
edits. -/
theorem applyEdits_preserves_originals {x : ℚ} {y : PunchType} :
    ∀ (eds : List (EditData × Actor × ℚ)) (p q : Punch),
      p.originalPunchTime = some x → p.originalPunchType = some y →
      applyEdits p eds = .ok q →
      q.originalPunchTime = some x ∧ q.originalPunchType = some y := by
  intro eds
  induction eds with
  | nil =>
    intro p q hx hy h
    cases h
    exact ⟨hx, hy⟩
  | cons e rest ih =>
    intro p q hx hy h
    obtain ⟨ed, actor, t⟩ := e
    unfold applyEdits at h
    cases he : editPunch (some p) ed actor t with
    | error msg => rw [he] at h; exact absurd h (by simp)
    | ok r =>
      rw [he] at h
      obtain ⟨hrx, hry⟩ := editPunch_preserves_originals hx hy he
      exact ih r q hrx hry h

/-- C9: starting from a punch whose original fields are unset, any
nonempty sequence of successful edits yields a punch whose
originalPunchTime and originalPunchType hold the pre-first-edit time
and type: the first edit captures them and no later edit changes them. -/
theorem c9_original_fields_first_write (p : Punch)
    (eds : List (EditData × Actor × ℚ)) (q : Punch)
    (hx : p.originalPunchTime = none) (hy : p.originalPunchType = none)
    (hne : eds ≠ []) (h : applyEdits p eds = .ok q) :
    q.originalPunchTime = some p.punchTime ∧
      q.originalPunchType = some p.punchType := by
  cases eds with
  | nil => exact absurd rfl hne
  | cons e rest =>
    obtain ⟨ed, actor, t⟩ := e
    unfold applyEdits at h
    cases he : editPunch (some p) ed actor t with
    | error msg => rw [he] at h; exact absurd h (by simp)
    | ok r =>
      rw [he] at h
      obtain ⟨hrx, hry⟩ := editPunch_first_capture hx hy he
      exact applyEdits_preserves_originals rest r q hrx hry h

/-- The punch of the C9 witness before any edit. -/
def c9WitnessPunch : Punch :=
  { pid := 5, userId := 7, punchTime := 32400, punchType := .IN }

/-- Two successive edits of the C9 witness, both by the punch owner:
the first moves the time to 10:00, the second to 11:00 and flips the
type. -/
def c9WitnessEdits : List (EditData × Actor × ℚ) :=
  [ ({ punchTime := some 36000, editReason := some "typo" },
      ⟨7, "Employee"⟩, 90000),
    ({ punchTime := some 39600, punchType := some .OUT,
        editReason := some "second fix" },
      ⟨7, "Employee"⟩, 90060) ]

/-- C9 witness instance: after the two successive edits the original
fields still hold the pre-first-edit time 09:00 and type IN. -/
theorem c9_original_fields_first_write_witness :
    ∃ q, applyEdits c9WitnessPunch c9WitnessEdits = .ok q ∧
      q.originalPunchTime = some (32400 : ℚ) ∧
      q.originalPunchType = some PunchType.IN := by
  refine ⟨{ pid := 5, userId := 7, punchTime := 39600, punchType := .OUT,
            edited := true, editedBy := some 7, editedAt := some 90060,
            editReason := some "second fix", originalPunchTime := some 32400,
            originalPunchType := some .IN }, rfl, ?_⟩
  exact c9_original_fields_first_write c9WitnessPunch c9WitnessEdits _
    rfl rfl (by simp [c9WitnessEdits]) rfl

/-- One active user as seen by a Reconciliation Scheduler run: the
result of the per-user day query, or the error thrown while processing
that user (for example a failing query or a configuration problem). -/
structure SchedUser where
  uid : Nat
  email : String
  todayPunches : List Punch
  loadError : Option String := none
deriving DecidableEq, Repr

/-- The aggregate result object of a completed auto-close run. -/
structure AutoCloseOutcome where
  success : Bool
  closedCount : Nat
  notificationsSent : Nat
deriving DecidableEq, Repr

/-- The user loop of PunchCleanupService.autoCloseOpenPunches. There is
no per-user try/catch: an error thrown while processing one user
propagates out of the loop immediately, so the remaining users are
never visited. Only the later notification sends are individually
wrapped in try/catch, which is why `notificationsSent` counts the
queued notifications. -/
def autoCloseLoop : List SchedUser → Nat → Nat → Except String (Nat × Nat)
  | [], closed, notifs => .ok (closed, notifs)
  | u :: rest, closed, notifs =>
    match u.loadError with
    | some e => .error e
    | none =>
      match u.todayPunches.getLast? with
      | some lastPunch =>
        if lastPunch.punchType = .IN then
          autoCloseLoop rest (closed + 1) (notifs + 1)
        else autoCloseLoop rest closed notifs
      | none => autoCloseLoop rest closed notifs

/-- PunchCleanupService.autoCloseOpenPunches: the whole loop sits in a
single try/catch whose catch logs and rethrows, so any error escaping
the loop makes the job return that error instead of the aggregate
counts. -/
def autoCloseOpenPunches (users : List SchedUser) :
    Except String AutoCloseOutcome :=
  match autoCloseLoop users 0 0 with
  | .error e => .error e
  | .ok (closed, notifs) => .ok ⟨true, closed, notifs⟩

/-- A user whose processing throws (the spec names a bad timezone as
the typical cause). -/
def c4BadUser : SchedUser :=
  { uid := 1, email := "first@example.com", todayPunches := [],
    loadError := some "Invalid timezone" }

/-- A healthy user with an open IN punch that should be auto-closed. -/
def c4GoodUser : SchedUser :=
  { uid := 2, email := "second@example.com",
    todayPunches :=
      [ { pid := 10, userId := 2, punchTime := 32400, punchType := .IN } ] }

/-- C4: processed alone, the healthy user is auto-closed and the job
reports closedCount 1; but when a failing user precedes it, the whole
run aborts with that error — the failure is rethrown, no aggregate
counts are reported and the remaining user is never processed, contrary
to the required per-user isolation. -/
theorem c4_one_user_failure_aborts_run :
    autoCloseOpenPunches [c4GoodUser] =
        .ok { success := true, closedCount := 1, notificationsSent := 1 } ∧
      autoCloseOpenPunches [c4BadUser, c4GoodUser] =
        .error "Invalid timezone" := by
  exact ⟨rfl, rfl⟩

/-- An orphan record of the orphaned-punch scan. -/
structure OrphanRec where
  punchId : Nat
  userId : Nat
  ptype : PunchType
  punchTime : ℚ
  reason : String
deriving DecidableEq, Repr

/-- The walk of PunchCleanupService.cleanupOrphanedPunches over one
user's window punches: flag each punch that differs from the expected
type, then advance the expectation from the actual observed type. -/
def findOrphans : List Punch → PunchType → List OrphanRec
  | [], _ => []
  | p :: rest, expectedNext =>
    let tail := findOrphans rest (if p.punchType = .IN then .OUT else .IN)
    if p.punchType ≠ expectedNext then
      { punchId := p.pid, userId := p.userId, ptype := p.punchType,
        punchTime := p.punchTime,
        reason := "Expected " ++ punchTypeName expectedNext ++ " but got "
          ++ punchTypeName p.punchType } :: tail
    else tail

/-- The notes value written for a flagged punch in non-dry-run mode. -/
def orphanNote (o : OrphanRec) : String :=
  "[SYSTEM] Orphaned " ++ punchTypeName o.ptype ++ " punch - " ++ o.reason

/-- The effect of one findByIdAndUpdate call on one stored punch:
the notes field is set (replaced) when the id matches. -/
def orphanStep (p : Punch) (o : OrphanRec) : Punch :=
  if p.pid = o.punchId then { p with notes := some (orphanNote o) } else p

/-- One findByIdAndUpdate call over the whole store. -/
def applyOrphanUpdate (db : List Punch) (o : OrphanRec) : List Punch :=
  db.map fun p => orphanStep p o

/-- PunchCleanupService.cleanupOrphanedPunches for one user's window:
detect the orphans, and in non-dry-run mode with a nonempty flag list
run one findByIdAndUpdate per orphan, each setting the notes field. -/
def cleanupOrphanedPunches (db : List Punch) (dryRun : Bool) :
    List Punch × List OrphanRec :=
  let orphans := findOrphans db .IN
  if dryRun = false ∧ orphans ≠ [] then
    (orphans.foldl applyOrphanUpdate db, orphans)
  else (db, orphans)

/-- A lone OUT punch carrying pre-existing notes. -/
def c5Punch (s : String) : Punch :=
  { pid := 1, userId := 7, punchTime := 0, punchType := .OUT,
    notes := some s }

/-- C5 counterexample: a flagged punch's notes are replaced by the
fixed system annotation — two stores whose flagged punch carried
different prior notes end up identical, and the prior content "keep me"
is gone, so the annotation is not additive. -/
theorem c5_notes_overwritten_not_additive :
    (cleanupOrphanedPunches [c5Punch "keep me"] false).1.map Punch.notes =
        [some "[SYSTEM] Orphaned OUT punch - Expected IN but got OUT"] ∧
      (cleanupOrphanedPunches [c5Punch "keep me"] false).1.map Punch.notes =
        (cleanupOrphanedPunches [c5Punch "customer meeting"] false).1.map
          Punch.notes ∧
      (c5Punch "keep me").notes = some "keep me" ∧
      (cleanupOrphanedPunches [c5Punch "keep me"] false).1.map Punch.notes ≠
        [some "keep me"] := by
  refine ⟨rfl, rfl, rfl, ?_⟩
  intro h
  have h0 : (cleanupOrphanedPunches [c5Punch "keep me"] false).1.map
      Punch.notes =
      [some "[SYSTEM] Orphaned OUT punch - Expected IN but got OUT"] := rfl
  rw [h0] at h
  injection h with h1 h2
  exact absurd (Option.some.inj h1) (by simp)

/-- The sequential updates by id commute with the per-punch fold. -/
theorem foldl_applyOrphanUpdate (os : List OrphanRec) :
    ∀ db : List Punch,
      os.foldl applyOrphanUpdate db = db.map fun p => os.foldl orphanStep p := by
  induction os with
  | nil => intro db; simp
  | cons o rest ih =>
    intro db
    calc (o :: rest).foldl applyOrphanUpdate db
        = rest.foldl applyOrphanUpdate (applyOrphanUpdate db o) := rfl
      _ = (applyOrphanUpdate db o).map (fun p => rest.foldl orphanStep p) :=
          ih _
      _ = db.map fun p => (o :: rest).foldl orphanStep p := by
          unfold applyOrphanUpdate
          rw [List.map_map]
          rfl

/-- The updates never touch id, time or type. -/
theorem foldl_orphanStep_preserves (os : List OrphanRec) :
    ∀ p : Punch, (os.foldl orphanStep p).pid = p.pid ∧
      (os.foldl orphanStep p).punchTime = p.punchTime ∧
      (os.foldl orphanStep p).punchType = p.punchType := by
  induction os with
  | nil => intro p; exact ⟨rfl, rfl, rfl⟩
  | cons o rest ih =>
    intro p
    have hstep : (orphanStep p o).pid = p.pid ∧
        (orphanStep p o).punchTime = p.punchTime ∧
        (orphanStep p o).punchType = p.punchType := by
      unfold orphanStep
      split <;> exact ⟨rfl, rfl, rfl⟩
    obtain ⟨h1, h2, h3⟩ := ih (orphanStep p o)
    exact ⟨h1.trans hstep.1, h2.trans hstep.2.1, h3.trans hstep.2.2⟩

/-- Per-punch effect of the update sequence: an unflagged punch is
returned unchanged, a flagged one has its notes replaced by the system
annotation of one of its orphan records. -/
theorem foldl_orphanStep_characterization (os : List OrphanRec) :
    ∀ p : Punch,
      (p.pid ∉ os.map OrphanRec.punchId → os.foldl orphanStep p = p) ∧
      (p.pid ∈ os.map OrphanRec.punchId →
        ∃ o ∈ os, o.punchId = p.pid ∧
          os.foldl orphanStep p = { p with notes := some (orphanNote o) }) := by
  induction os with
  | nil =>
    intro p
    exact ⟨fun _ => rfl, fun h => absurd h (by simp)⟩
  | cons o rest ih =>
    intro p
    constructor
    · intro hnot
      simp only [List.map_cons, List.mem_cons, not_or] at hnot
      obtain ⟨hne, hnotrest⟩ := hnot
      have hstep : orphanStep p o = p := by
        unfold orphanStep
        rw [if_neg (fun h => hne h)]
      rw [List.foldl_cons, hstep]
      exact (ih p).1 hnotrest
    · intro hin
      by_cases heq : p.pid = o.punchId
      · have hstep : orphanStep p o = { p with notes := some (orphanNote o) } := by
          unfold orphanStep
          rw [if_pos heq]
        rw [List.foldl_cons, hstep]
        set p1 : Punch := { p with notes := some (orphanNote o) } with hp1
        by_cases hrest : p1.pid ∈ rest.map OrphanRec.punchId
        · obtain ⟨o2, ho2mem, ho2id, ho2eq⟩ := (ih p1).2 hrest
          refine ⟨o2, List.mem_cons_of_mem _ ho2mem, ?_, ?_⟩
          · exact ho2id
          · rw [ho2eq]
        · rw [(ih p1).1 hrest]
          exact ⟨o, List.mem_cons_self _ _, heq.symm, rfl⟩
      · have hstep : orphanStep p o = p := by
          unfold orphanStep
          rw [if_neg heq]
        rw [List.foldl_cons, hstep]
        have hinrest : p.pid ∈ rest.map OrphanRec.punchId := by
          simp only [List.map_cons, List.mem_cons] at hin
          exact hin.resolve_left heq
        obtain ⟨o2, ho2mem, ho2id, ho2eq⟩ := (ih p).2 hinrest
        exact ⟨o2, List.mem_cons_of_mem _ ho2mem, ho2id, ho2eq⟩

/-- The non-dry-run result is the pointwise update of the store. -/
theorem cleanup_eq_map (db : List Punch) :
    (cleanupOrphanedPunches db false).1 =
      db.map fun p => (findOrphans db .IN).foldl orphanStep p := by
  unfold cleanupOrphanedPunches
  by_cases h : findOrphans db .IN = []
  · simp [h]
  · rw [if_pos ⟨rfl, h⟩]
    exact foldl_applyOrphanUpdate _ db

/-- C5 (amended): in non-dry-run mode no punch is removed (the store
keeps its length, and every position keeps its punch id, time and
type); an unflagged punch is untouched, while each flagged punch's
notes field is overwritten with the fixed system annotation of one of
its orphan records — the prior notes content is discarded, not
appended to. -/
theorem c5_cleanup_annotates_in_place (db : List Punch) :
    ((cleanupOrphanedPunches db false).1).length = db.length ∧
      (∀ (i : Nat) (p : Punch), db[i]? = some p →
        ∃ p', ((cleanupOrphanedPunches db false).1)[i]? = some p' ∧
          p'.pid = p.pid ∧ p'.punchTime = p.punchTime ∧
          p'.punchType = p.punchType ∧
          ((p.pid ∉ (findOrphans db .IN).map OrphanRec.punchId ∧ p' = p) ∨
            (∃ o ∈ findOrphans db .IN, o.punchId = p.pid ∧
              p' = { p with notes := some (orphanNote o) }))) := by
  constructor
  · rw [cleanup_eq_map]
    exact List.length_map _ _
  · intro i p hp
    rw [cleanup_eq_map]
    refine ⟨(findOrphans db .IN).foldl orphanStep p, ?_, ?_⟩
    · rw [List.getElem?_map, hp]
      rfl
    · obtain ⟨h1, h2, h3⟩ :=
        foldl_orphanStep_preserves (findOrphans db .IN) p
      refine ⟨h1, h2, h3, ?_⟩
      by_cases hmem : p.pid ∈ (findOrphans db .IN).map OrphanRec.punchId
      · exact Or.inr
          ((foldl_orphanStep_characterization (findOrphans db .IN) p).2 hmem)
      · exact Or.inl
          ⟨hmem, (foldl_orphanStep_characterization (findOrphans db .IN) p).1 hmem⟩

/-- The store of the C5 witness: a well-formed IN-OUT pair followed by
an orphaned second OUT that carries prior notes. -/
def c5WitnessDb : List Punch :=
  [ { pid := 1, userId := 7, punchTime := 0, punchType := .IN },
    { pid := 2, userId := 7, punchTime := 3600, punchType := .OUT },
    { pid := 3, userId := 7, punchTime := 7200, punchType := .OUT,
      notes := some "left early" } ]

/-- The orphaned punch of the C5 witness store. -/
def c5OrphanPunch : Punch :=
  { pid := 3, userId := 7, punchTime := 7200, punchType := .OUT,
    notes := some "left early" }

/-- C5 witness instance: position 2 of the witness store after the
non-dry-run cleanup. -/
theorem c5_cleanup_annotates_in_place_witness :
    ∃ p', ((cleanupOrphanedPunches c5WitnessDb false).1)[2]? = some p' ∧
      p'.pid = c5OrphanPunch.pid ∧
      p'.punchTime = c5OrphanPunch.punchTime ∧
      p'.punchType = c5OrphanPunch.punchType ∧
      ((c5OrphanPunch.pid ∉
          (findOrphans c5WitnessDb .IN).map OrphanRec.punchId ∧
          p' = c5OrphanPunch) ∨
        (∃ o ∈ findOrphans c5WitnessDb .IN,
          o.punchId = c5OrphanPunch.pid ∧
          p' = { c5OrphanPunch with notes := some (orphanNote o) })) := by
  exact (c5_cleanup_annotates_in_place c5WitnessDb).2 2 c5OrphanPunch rfl

/-- A JavaScript number for the progress computation: NaN, the two
infinities, or a finite value. -/
inductive JSNum where
  | nan
  | posInf
  | negInf
  | val (q : ℚ)
deriving DecidableEq, Repr

/-- JS division: `0/0` is NaN, a nonzero value over 0 is a signed
infinity, otherwise the exact quotient. -/
def jsDiv (a b : ℚ) : JSNum :=
  if b = 0 then
    if a = 0 then .nan else if 0 < a then .posInf else .negInf
  else .val (a / b)

/-- Multiplication of a JS number by 100. -/
def jsMul100 : JSNum → JSNum
  | .nan => .nan
  | .posInf => .posInf
  | .negInf => .negInf
  | .val q => .val (q * 100)

/-- `Math.round` on a JS number (NaN and infinities pass through). -/
def jsRoundNum : JSNum → JSNum
  | .nan => .nan
  | .posInf => .posInf
  | .negInf => .negInf
  | .val q => .val (jsRound q : ℚ)

/-- `Math.min a x`: NaN-propagating minimum. -/
def jsMin (a : ℚ) : JSNum → JSNum
  | .nan => .nan
  | .posInf => .val a
  | .negInf => .negInf
  | .val q => .val (min a q)

/-- The configured default daily target: `workHours * 60` with the
default of 8 work hours. -/
def defaultDailyTarget : ℚ := 8 * 60

/-- TimeEngine.getDailyWorkTarget: the profile value unless it is
absent or 0 (falsy in JS), in which case the configured default. -/
def getDailyWorkTarget (profileTarget : Option ℚ) : ℚ :=
  match profileTarget with
  | some t => if t = 0 then defaultDailyTarget else t
  | none => defaultDailyTarget

/-- The daily target is never 0 (0 is falsy and falls back to the
default). -/
theorem getDailyWorkTarget_ne_zero (profileTarget : Option ℚ) :
    getDailyWorkTarget profileTarget ≠ 0 := by
  cases profileTarget with
  | none =>
    unfold getDailyWorkTarget defaultDailyTarget
    norm_num
  | some t =>
    by_cases h : t = 0
    · simp only [getDailyWorkTarget, if_pos h, defaultDailyTarget]
      norm_num
    · simp only [getDailyWorkTarget, if_neg h]
      exact h

/-- The day names of the summary week in loop order: moment's default
locale starts the week on Sunday. -/
def weekDayNames : List String :=
  ["Sunday", "Monday", "Tuesday", "Wednesday", "Thursday", "Friday",
    "Saturday"]

/-- The name of the i-th day of the summary week. -/
def weekDayName (i : Fin 7) : String := weekDayNames.getD i.val ""

/-- The inputs of one getWeeklySummary call, after the timezone
arithmetic: the user's configured working days and profile target, and
for each of the 7 week days the punches falling inside that day's
bounds together with whether that day is the current day (only then is
the open session included). -/
structure WeekInput where
  workingDays : List String
  profileDailyTarget : Option ℚ := none
  punchesByDay : Fin 7 → List Punch
  isToday : Fin 7 → Bool
  now : ℚ

/-- The worked minutes the summary computes for day `i`. -/
def rawWorked (w : WeekInput) (i : Fin 7) : ℚ :=
  calculateWorkedTime (w.punchesByDay i) (w.isToday i) w.now

/-- One dailyData entry of the weekly summary (reported workedMinutes
are rounded to two decimals; isTargetMet compares the raw value). -/
structure DayEntry where
  dayName : String
  isWorkingDay : Bool
  workedMinutes : ℚ
  targetMinutes : ℚ
  punchCount : Nat
  isTargetMet : Bool
deriving DecidableEq, Repr

/-- The dailyData entry the loop pushes for day `i`. -/
def dayEntryOf (w : WeekInput) (dailyTarget : ℚ) (i : Fin 7) : DayEntry :=
  { dayName := weekDayName i,
    isWorkingDay := w.workingDays.contains (weekDayName i),
    workedMinutes := round2 (rawWorked w i),
    targetMinutes :=
      if w.workingDays.contains (weekDayName i) then dailyTarget else 0,
    punchCount := (w.punchesByDay i).length,
    isTargetMet := decide (rawWorked w i ≥ dailyTarget) }

/-- The 7-day loop of TimeEngine.getWeeklySummary, carrying the
dailyData list, the running week total and the working-days count. -/
def weekFold (w : WeekInput) (dailyTarget : ℚ) :
    List (Fin 7) → List DayEntry × ℚ × Nat → List DayEntry × ℚ × Nat
  | [], acc => acc
  | i :: rest, (dayData, total, count) =>
    let isWorkingDay := w.workingDays.contains (weekDayName i)
    let raw := rawWorked w i
    let count1 := if isWorkingDay then count + 1 else count
    let total1 := if isWorkingDay then total + raw else total
    weekFold w dailyTarget rest
      (dayData ++ [dayEntryOf w dailyTarget i], total1, count1)

/-- The summary object returned by TimeEngine.getWeeklySummary (the
fields the claims are about). -/
structure WeeklySummary where
  totalWorkedMinutes : ℚ
  weeklyTargetMinutes : ℚ
  progressPercent : JSNum
  workingDaysCount : Nat
  dailyData : List DayEntry
deriving Repr

/-- TimeEngine.getWeeklySummary: run the 7-day loop, then weekly
target = workingDaysCount * dailyTarget and progress percent
= min(100, round((totalWeekMinutes / weeklyTarget) * 100)). -/
def getWeeklySummary (w : WeekInput) : WeeklySummary :=
  let dailyTarget := getDailyWorkTarget w.profileDailyTarget
  let folded := weekFold w dailyTarget (List.finRange 7) ([], 0, 0)
  let totalWeekMinutes := folded.2.1
  let workingDaysCount := folded.2.2
  let weeklyTarget := (workingDaysCount : ℚ) * dailyTarget
  { totalWorkedMinutes := round2 totalWeekMinutes,
    weeklyTargetMinutes := weeklyTarget,
    progressPercent :=
      jsMin 100 (jsRoundNum (jsMul100 (jsDiv totalWeekMinutes weeklyTarget))),
    workingDaysCount := workingDaysCount,
    dailyData := folded.1 }

/-- The working days among an index list. -/
def workingFilter (w : WeekInput) (l : List (Fin 7)) : List (Fin 7) :=
  l.filter fun i => w.workingDays.contains (weekDayName i)

/-- Closed form of the summary loop: the dailyData entries in order,
the total of the raw worked minutes over the working days only, and
the number of working days. -/
theorem weekFold_spec (w : WeekInput) (dailyTarget : ℚ)
    (l : List (Fin 7)) :
    ∀ (dayData : List DayEntry) (total : ℚ) (count : Nat),
      weekFold w dailyTarget l (dayData, total, count) =
        (dayData ++ l.map (dayEntryOf w dailyTarget),
          total + ((workingFilter w l).map (rawWorked w)).sum,
          count + (workingFilter w l).length) := by
  induction l with
  | nil =>
    intro dayData total count
    simp [weekFold, workingFilter]
  | cons i rest ih =>
    intro dayData total count
    by_cases hw : w.workingDays.contains (weekDayName i)
    · have hstep : weekFold w dailyTarget (i :: rest) (dayData, total, count) =
          weekFold w dailyTarget rest
            (dayData ++ [dayEntryOf w dailyTarget i],
              total + rawWorked w i, count + 1) := by
        simp only [weekFold]
        rw [if_pos hw, if_pos hw]
      rw [hstep, ih]
      unfold workingFilter
      simp only [List.filter_cons, hw, if_true, List.map_cons, List.sum_cons,
        List.length_cons, List.append_assoc, List.singleton_append,
        Prod.mk.injEq, true_and, and_true]
      refine ⟨?_, ?_⟩
      · ring
      · omega
    · have hstep : weekFold w dailyTarget (i :: rest) (dayData, total, count) =
          weekFold w dailyTarget rest
            (dayData ++ [dayEntryOf w dailyTarget i], total, count) := by
        simp only [weekFold]
        rw [if_neg hw, if_neg hw]
      rw [hstep, ih]
      unfold workingFilter
      simp only [List.filter_cons, hw, List.map_cons, List.append_assoc,
        List.singleton_append, Prod.mk.injEq]
      simp

/-- The summary fields in closed form. -/
theorem getWeeklySummary_spec (w : WeekInput) :
    getWeeklySummary w =
      { totalWorkedMinutes :=
          round2 (((workingFilter w (List.finRange 7)).map (rawWorked w)).sum),
        weeklyTargetMinutes :=
          ((workingFilter w (List.finRange 7)).length : ℚ) *
            getDailyWorkTarget w.profileDailyTarget,
        progressPercent :=
          jsMin 100 (jsRoundNum (jsMul100 (jsDiv
            (((workingFilter w (List.finRange 7)).map (rawWorked w)).sum)
            (((workingFilter w (List.finRange 7)).length : ℚ) *
              getDailyWorkTarget w.profileDailyTarget)))),
        workingDaysCount := (workingFilter w (List.finRange 7)).length,
        dailyData :=
          (List.finRange 7).map
            (dayEntryOf w (getDailyWorkTarget w.profileDailyTarget)) } := by
  unfold getWeeklySummary
  simp only [weekFold_spec]
  simp

/-- A user with no configured working days and no punches. -/
def c6EmptyInput : WeekInput :=
  { workingDays := [], punchesByDay := fun _ => [], isToday := fun _ => false,
    now := 0 }

/-- C6 counterexample: with an empty workingDays set the weekly target
is 0 and the progress computation divides 0 by 0, so progressPercent is
NaN — not a number capped at 100. -/
theorem c6_empty_working_days_gives_NaN :
    (getWeeklySummary c6EmptyInput).progressPercent = JSNum.nan := by
  rw [getWeeklySummary_spec]
  have hfilter : workingFilter c6EmptyInput (List.finRange 7) = [] := by
    unfold workingFilter
    simp [c6EmptyInput]
  simp [hfilter, jsDiv, jsMul100, jsRoundNum, jsMin]

/-- C6 (amended): weeklyTargetMinutes always equals workingDaysCount
times the user's daily target; and whenever at least one of the 7 days
is a working day, progressPercent is a finite number at most 100. With
an empty workingDays set the weekly target is 0 and progressPercent is
the NaN of 0/0 instead of a capped number. -/
theorem c6_weekly_target_and_progress_cap (w : WeekInput) :
    (getWeeklySummary w).weeklyTargetMinutes =
      ((getWeeklySummary w).workingDaysCount : ℚ) *
        getDailyWorkTarget w.profileDailyTarget ∧
      (0 < (getWeeklySummary w).workingDaysCount →
        ∃ q : ℚ, (getWeeklySummary w).progressPercent = JSNum.val q ∧
          q ≤ 100) := by
  rw [getWeeklySummary_spec]
  refine ⟨rfl, ?_⟩
  intro hpos
  have hpos' : 0 < (workingFilter w (List.finRange 7)).length := hpos
  have htne : ((workingFilter w (List.finRange 7)).length : ℚ) *
      getDailyWorkTarget w.profileDailyTarget ≠ 0 := by
    apply mul_ne_zero
    · exact_mod_cast Nat.pos_iff_ne_zero.mp hpos'
    · exact getDailyWorkTarget_ne_zero _
  show ∃ q : ℚ,
    jsMin 100 (jsRoundNum (jsMul100 (jsDiv
      (((workingFilter w (List.finRange 7)).map (rawWorked w)).sum)
      (((workingFilter w (List.finRange 7)).length : ℚ) *
        getDailyWorkTarget w.profileDailyTarget)))) = JSNum.val q ∧ q ≤ 100
  simp only [jsDiv, if_neg htne, jsMul100, jsRoundNum, jsMin]
  exact ⟨_, rfl, min_le_left _ _⟩

/-- A user working only on Mondays, with no punches this week. -/
def c6MondayInput : WeekInput :=
  { workingDays := ["Monday"], punchesByDay := fun _ => [],
    isToday := fun _ => false, now := 0 }

/-- C6 witness instance: one working day, progress a number at most
100. -/
theorem c6_weekly_target_and_progress_cap_witness :
    0 < (getWeeklySummary c6MondayInput).workingDaysCount ∧
      ∃ q : ℚ, (getWeeklySummary c6MondayInput).progressPercent =
        JSNum.val q ∧ q ≤ 100 := by
  have hpos : 0 < (getWeeklySummary c6MondayInput).workingDaysCount := by
    rw [getWeeklySummary_spec]
    show 0 < (workingFilter c6MondayInput (List.finRange 7)).length
    decide
  exact ⟨hpos, (c6_weekly_target_and_progress_cap c6MondayInput).2 hpos⟩

/-- C10: the reported weekly total (and so the progress numerator) is
the rounded sum of the raw per-day worked minutes over the working days
only, while dailyData reports every day's own rounded worked minutes
with its isWorkingDay flag — minutes on a non-working day appear in its
dailyData entry but are excluded from the weekly total. -/
theorem c10_weekly_total_only_working_days (w : WeekInput) :
    (getWeeklySummary w).totalWorkedMinutes =
      round2 (((workingFilter w (List.finRange 7)).map (rawWorked w)).sum) ∧
      (getWeeklySummary w).dailyData.map DayEntry.workedMinutes =
        (List.finRange 7).map (fun i => round2 (rawWorked w i)) ∧
      (getWeeklySummary w).dailyData.map DayEntry.isWorkingDay =
        (List.finRange 7).map
          (fun i => w.workingDays.contains (weekDayName i)) := by
  rw [getWeeklySummary_spec]
  refine ⟨rfl, ?_, ?_⟩
  · rw [List.map_map]
    rfl
  · rw [List.map_map]
    rfl

end OTM
